import Mathlib

/-!
Verification of the adversarial-dataset generation and evaluation pipelines of the
AdversarialAttacks repository (SQuAD AddSent / AddAny attack notebooks and the
attack-evaluation notebook).

Python strings are modelled as `List Char` (`Str`), so that `s[i:j]` is
`(s.drop i).take (j - i)`, `len` is `List.length`, and `str.index` /
the `in` operator are the first-occurrence search `findSub` below.
The SQuAD JSON hierarchy is modelled by the structures `Answer`, `QAPair`,
`Paragraph`, `Article`, `SquadData`.

Side effects are made explicit: the Python `process_squad_file` functions both
build a new corpus and (through the shallow `qa.copy()`) write recomputed
offsets into the *input* corpus, so their embeddings return a pair
`(new corpus, post-state of the input corpus)` inside `Except PyErr`, where
`PyErr` records an uncaught Python `IndexError` (from `random.choice` on an
empty list) or `ValueError` (from `str.index` on a missing substring).
Randomness (`random.choice`) is modelled by a stream `rng : Nat -> Nat` of
draws consumed in program order, reduced modulo the length of the list being
chosen from; the spaCy tagger is an oracle parameter `tag`.
-/

/-- A Python `str`, as its list of characters. -/
abbrev Str := List Char

/-- One entry of a SQuAD `answers` array: `{"text": ..., "answer_start": ...}`. -/
structure Answer where
  text : Str
  answer_start : Nat
  deriving DecidableEq

/-- One entry of a SQuAD `qas` array. -/
structure QAPair where
  id : Str
  question : Str
  is_impossible : Bool
  answers : List Answer
  deriving DecidableEq

/-- A SQuAD paragraph: `{"context": ..., "qas": [...]}`. -/
structure Paragraph where
  context : Str
  qas : List QAPair
  deriving DecidableEq

/-- A SQuAD article: `{"title": ..., "paragraphs": [...]}`. -/
structure Article where
  title : Str
  paragraphs : List Paragraph
  deriving DecidableEq

/-- A SQuAD corpus: `{"version": ..., "data": [...]}`. -/
structure SquadData where
  version : Str
  data : List Article
  deriving DecidableEq

/-- `startsWith s sub` : does `s` begin with `sub`? -/
def startsWith : Str → Str → Bool
  | _, [] => true
  | [], _ :: _ => false
  | c :: s, d :: t => c = d && startsWith s t

/-- `subAt sub s n` : the Python condition `s[n : n + len(sub)] == sub`,
i.e. `sub` occurs in `s` at (0-based) character offset `n`. -/
def subAt (sub s : Str) (n : Nat) : Prop :=
  (s.drop n).take sub.length = sub

instance (sub s : Str) (n : Nat) : Decidable (subAt sub s n) := by
  unfold subAt; infer_instance

/-- Python `s.find(sub)` / `s.index(sub)`: offset of the first occurrence of
`sub` in `s`, or `none` (Python: `-1` / `ValueError`) when there is none. -/
def findSub : Str → Str → Option Nat
  | [], sub => if startsWith [] sub then some 0 else none
  | c :: t, sub =>
    if startsWith (c :: t) sub then some 0
    else (findSub t sub).map (· + 1)

lemma startsWith_true_iff : ∀ s sub : Str, startsWith s sub = true ↔ subAt sub s 0
  | _, [] => by simp [startsWith, subAt]
  | [], _ :: _ => by simp [startsWith, subAt]
  | c :: s, d :: t => by
    simp only [startsWith, subAt, List.drop_zero, List.length_cons, List.take_succ_cons,
      List.cons.injEq, Bool.and_eq_true, decide_eq_true_eq]
    constructor
    · rintro ⟨rfl, h⟩
      exact ⟨rfl, by simpa [subAt] using (startsWith_true_iff s t).mp h⟩
    · rintro ⟨rfl, h⟩
      exact ⟨rfl, (startsWith_true_iff s t).mpr (by simpa [subAt] using h)⟩

lemma subAt_nil_iff (sub : Str) (n : Nat) : subAt sub [] n ↔ sub = [] := by
  simp [subAt, eq_comm]

lemma subAt_cons_succ (sub : Str) (c : Char) (s : Str) (n : Nat) :
    subAt sub (c :: s) (n + 1) ↔ subAt sub s n := Iff.rfl

/-- `findSub` returns precisely the least offset at which `sub` occurs. -/
lemma findSub_eq_some_iff :
    ∀ (s sub : Str) (n : Nat),
      findSub s sub = some n ↔ subAt sub s n ∧ ∀ m < n, ¬ subAt sub s m
  | [], sub, n => by
    by_cases hsub : sub = []
    · subst hsub
      simp only [findSub, startsWith, if_pos rfl]
      constructor
      · rintro h
        cases h
        exact ⟨by simp [subAt], by omega⟩
      · rintro ⟨-, hmin⟩
        by_contra hne
        have hn : 0 < n := by
          rcases Nat.eq_zero_or_pos n with h0 | h0
          · subst h0; simp at hne
          · exact h0
        exact hmin 0 hn (by simp [subAt])
    · have h1 : startsWith [] sub = false := by
        cases sub with
        | nil => simp at hsub
        | cons d t => rfl
      have h2 : findSub [] sub = none := by simp [findSub, h1]
      rw [h2]
      constructor
      · intro h; cases h
      · rintro ⟨h, -⟩
        exact absurd ((subAt_nil_iff sub n).mp h) hsub
  | c :: t, sub, n => by
    by_cases h : startsWith (c :: t) sub = true
    · simp only [findSub, if_pos h]
      constructor
      · rintro hsome
        cases hsome
        exact ⟨(startsWith_true_iff _ _).mp h, by omega⟩
      · rintro ⟨-, hmin⟩
        by_contra hne
        have hn : 0 < n := by
          rcases Nat.eq_zero_or_pos n with h0 | h0
          · subst h0; simp at hne
          · exact h0
        exact hmin 0 hn ((startsWith_true_iff _ _).mp h)
    · have h0 : ¬ subAt sub (c :: t) 0 := fun hc => h ((startsWith_true_iff _ _).mpr hc)
      simp only [findSub, if_neg h, Option.map_eq_some']
      constructor
      · rintro ⟨m, hm, rfl⟩
        have := (findSub_eq_some_iff t sub m).mp hm
        refine ⟨(subAt_cons_succ _ _ _ _).mpr this.1, ?_⟩
        intro j hj
        cases j with
        | zero => exact h0
        | succ i =>
          intro hc
          exact this.2 i (by omega) ((subAt_cons_succ _ _ _ _).mp hc)
      · rintro ⟨hat, hmin⟩
        cases n with
        | zero => exact absurd hat h0
        | succ m =>
          refine ⟨m, (findSub_eq_some_iff t sub m).mpr ⟨(subAt_cons_succ _ _ _ _).mp hat, ?_⟩, rfl⟩
          intro i hi hc
          exact hmin (i + 1) (by omega) ((subAt_cons_succ _ _ _ _).mpr hc)

lemma findSub_eq_none_iff (s sub : Str) :
    findSub s sub = none ↔ ∀ n, ¬ subAt sub s n := by
  constructor
  · intro h n hat
    induction s generalizing n with
    | nil =>
      have : sub ≠ [] := by
        intro hsub; subst hsub; simp [findSub, startsWith] at h
      exact this ((subAt_nil_iff sub n).mp hat)
    | cons c t ih =>
      by_cases hsw : startsWith (c :: t) sub = true
      · simp [findSub, hsw] at h
      · simp only [findSub, if_neg hsw, Option.map_eq_none'] at h
        cases n with
        | zero => exact hsw ((startsWith_true_iff _ _).mpr hat)
        | succ m => exact ih h m ((subAt_cons_succ _ _ _ _).mp hat)
  · intro h
    cases hf : findSub s sub with
    | none => rfl
    | some n => exact absurd ((findSub_eq_some_iff s sub n).mp hf).1 (h n)

/-- If `sub` occurs at `n`, it fits: `sub.length ≤ s.length - n`. -/
lemma subAt_length_le {sub s : Str} {n : Nat} (h : subAt sub s n) :
    sub.length ≤ s.length - n := by
  have := congrArg List.length h
  simp only [List.length_take, List.length_drop] at this
  omega

/-- An occurrence inside `s` is still an occurrence inside `s ++ r`. -/
lemma subAt_append {sub s r : Str} {n : Nat} (h : subAt sub s n) :
    subAt sub (s ++ r) n := by
  have hle : sub.length ≤ (s.drop n).length := by
    simpa [List.length_drop] using subAt_length_le h
  unfold subAt at h ⊢
  rw [List.drop_append_eq_append_drop, List.take_append_of_le_length hle]
  exact h

/-- An occurrence of `sub` inside `s ++ r` that fits inside `s` is an
occurrence inside `s`. -/
lemma subAt_of_append {sub s r : Str} {n : Nat}
    (hn : n + sub.length ≤ s.length) (h : subAt sub (s ++ r) n) :
    subAt sub s n := by
  have hle : sub.length ≤ (s.drop n).length := by
    simp only [List.length_drop]; omega
  unfold subAt at h ⊢
  rw [List.drop_append_eq_append_drop, List.take_append_of_le_length hle] at h
  exact h

lemma findSub_nil_sub (s : Str) : findSub s [] = some 0 := by
  cases s <;> rfl

/-- Appending a suffix never moves the first occurrence of a substring that
already occurs in the prefix. -/
lemma findSub_append {s sub r : Str} {n : Nat} (h : findSub s sub = some n) :
    findSub (s ++ r) sub = some n := by
  by_cases hsub : sub = []
  · subst hsub
    have h0 := findSub_nil_sub s
    rw [h0] at h
    cases h
    exact findSub_nil_sub (s ++ r)
  · rcases (findSub_eq_some_iff s sub n).mp h with ⟨hat, hmin⟩
    have hlen : 0 < sub.length := List.length_pos.mpr hsub
    have h1 := subAt_length_le hat
    apply (findSub_eq_some_iff _ _ _).mpr
    refine ⟨subAt_append hat, ?_⟩
    intro m hm hc
    exact hmin m hm (subAt_of_append (by omega) hc)

/-- `occurs_in sub s` : `sub` is a substring of `s` (Python `sub in s`). -/
def occurs_in (sub s : Str) : Prop := ∃ n, subAt sub s n

lemma occurs_in_iff_findSub (sub s : Str) :
    occurs_in sub s ↔ (findSub s sub).isSome := by
  constructor
  · rintro ⟨n, hn⟩
    cases hf : findSub s sub with
    | none => exact absurd hn ((findSub_eq_none_iff s sub).mp hf n)
    | some m => rfl
  · intro h
    cases hf : findSub s sub with
    | none => rw [hf] at h; simp at h
    | some m => exact ⟨m, ((findSub_eq_some_iff s sub m).mp hf).1⟩

instance (sub s : Str) : Decidable (occurs_in sub s) :=
  decidable_of_iff _ (occurs_in_iff_findSub sub s).symm

/-- An uncaught Python exception that aborts a run: `IndexError` is raised by
`random.choice` on an empty sequence, `ValueError` by `str.index` when the
substring is not found. -/
inductive PyErr where
  | indexError
  | valueError
  deriving DecidableEq

deriving instance DecidableEq for Except

/-- The stream of pseudo-random draws behind the module-level `random`
generator: draw number `k` is `rng k`, and `random.choice(xs)` uses it
modulo `len(xs)`. -/
abbrev RNG := Nat → Nat

/-- Python `random.choice(xs)`, consuming draw `k`; returns the chosen element
and the next draw index, or `IndexError` when `xs` is empty. -/
def pyChoice (rng : RNG) (k : Nat) : (xs : List α) → Except PyErr (α × Nat)
  | [] => .error .indexError
  | x :: t => .ok ((x :: t).get ⟨rng k % (x :: t).length, Nat.mod_lt _ (Nat.succ_pos t.length)⟩, k + 1)

lemma pyChoice_ok {rng : RNG} {k : Nat} {xs : List α} {x : α} {k2 : Nat}
    (h : pyChoice rng k xs = .ok (x, k2)) :
    ∃ hlen : 0 < xs.length,
      k2 = k + 1 ∧ x = xs.get ⟨rng k % xs.length, Nat.mod_lt _ hlen⟩ := by
  cases xs with
  | nil => exact absurd h (by simp [pyChoice])
  | cons y t =>
    refine ⟨Nat.succ_pos t.length, ?_⟩
    simp only [pyChoice, Except.ok.injEq, Prod.mk.injEq] at h
    exact ⟨h.2.symm, h.1.symm⟩

/-- Python `" ".join(xs)`. -/
def joinSp : List Str → Str
  | [] => []
  | [s] => s
  | s :: rest => s ++ " ".data ++ joinSp rest

/-- Python `s.lower()` (character-wise, as for the ASCII answers compared here). -/
def lowerStr (s : Str) : Str := s.map Char.toLower

/-- The Python idiom `qa['answers'][0]['text'] if qa['answers'] else ""`:
the first answer's text, or the empty string when the answers list is empty. -/
def first_answer_text (qa : QAPair) : Str :=
  match qa.answers with
  | [] => []
  | a :: _ => a.text

/-- A spaCy token as the AddSent notebook consumes it: its surface text
(`token.text`) and its coarse part-of-speech tag (`token.pos_`). -/
structure Token where
  text : Str
  pos : Str
  deriving DecidableEq

/-- `token.pos_ in ['NOUN', 'VERB', 'ADJ']`. -/
def pos_is_nva (t : Token) : Bool :=
  t.pos = "NOUN".data || t.pos = "VERB".data || t.pos = "ADJ".data

/-- `token.pos_ != 'PUNCT'`. -/
def pos_not_punct (t : Token) : Bool :=
  ! (t.pos = "PUNCT".data : Bool)

/-- The key-word extraction of `generate_adversarial_sentence`
(AddSent notebook, cell 3): the texts of the question's tokens tagged
noun/verb/adjective, falling back to all non-punctuation tokens when that
list is empty.  `tag` is the spaCy pipeline `nlp`, an external oracle. -/
def question_key_words (tag : Str → List Token) (question : Str) : List Str :=
  let primary := ((tag question).filter pos_is_nva).map Token.text
  if primary.isEmpty then ((tag question).filter pos_not_punct).map Token.text
  else primary

/-- `generate_adversarial_sentence(qas)` (AddSent notebook, cell 3): choose a
random QAPair, extract key words from its question, and build the distracting
sentence; consumes two draws from `rng` starting at draw `k`. -/
def generate_adversarial_sentence (tag : Str → List Token) (rng : RNG) (k : Nat)
    (qas : List QAPair) : Except PyErr (Str × Nat) :=
  match pyChoice rng k qas with
  | .error e => .error e
  | .ok (qa, k1) =>
    let answer := first_answer_text qa
    if answer.isEmpty then
      match pyChoice rng k1 (question_key_words tag qa.question) with
      | .error e => .error e
      | .ok (kw, k2) =>
        .ok ("However, ".data ++ kw ++ " is not relevant to this context.".data, k2)
    else
      match pyChoice rng k1 (question_key_words tag qa.question) with
      | .error e => .error e
      | .ok (kw, k2) =>
        .ok ("However, ".data ++ kw ++ " is not related to ".data ++ answer ++ ".".data, k2)

/-- The body of the `for qa in paragraph['qas']` loop shared verbatim by the
AddSent and AddAny `process_squad_file` functions:
`new_qa = qa.copy()` (a *shallow* copy, so `new_qa['answers']` aliases
`qa['answers']`), then if the answers list is non-empty the first answer's
`answer_start` is set to `adv_context.index(text)`.  Returns
`(new_qa, post-state of the input qa)`; because of the aliasing the input
qa's first answer is updated too, so the two components are equal as values.
`str.index` raising `ValueError` is the `.error .valueError` case. -/
def update_qa (adv_context : Str) (qa : QAPair) : Except PyErr (QAPair × QAPair) :=
  match qa.answers with
  | [] => .ok (qa, qa)
  | a :: rest =>
    match findSub adv_context a.text with
    | none => .error .valueError
    | some n =>
      let qa2 : QAPair := { qa with answers := { a with answer_start := n } :: rest }
      .ok (qa2, qa2)

/-- The whole `for qa in paragraph['qas']` loop: processes the pairs in order,
propagating the first uncaught exception. -/
def update_qas (adv_context : Str) : List QAPair → Except PyErr (List (QAPair × QAPair))
  | [] => .ok []
  | qa :: rest =>
    match update_qa adv_context qa with
    | .error e => .error e
    | .ok pr =>
      match update_qas adv_context rest with
      | .error e => .error e
      | .ok prs => .ok (pr :: prs)

/-- Sequential processing of a list with the random-draw counter threaded
through, as the `for article ... / for paragraph ...` loops do; each element
yields a `(new, post-state)` pair. -/
def thread (f : Nat → α → Except PyErr (β × β × Nat)) :
    Nat → List α → Except PyErr (List (β × β) × Nat)
  | k, [] => .ok ([], k)
  | k, a :: rest =>
    match f k a with
    | .error e => .error e
    | .ok (b1, b2, k1) =>
      match thread f k1 rest with
      | .error e => .error e
      | .ok (prs, k2) => .ok ((b1, b2) :: prs, k2)

/-- The `for paragraph in article['paragraphs']` body of the AddSent
`process_squad_file` (cell 4): generate one adversarial sentence for the whole
paragraph, append it space-separated to the context, and update every QAPair.
Returns `(new_paragraph, post-state of the input paragraph, next draw)`. -/
def process_paragraph_addsent (tag : Str → List Token) (rng : RNG) (k : Nat)
    (p : Paragraph) : Except PyErr (Paragraph × Paragraph × Nat) :=
  match generate_adversarial_sentence tag rng k p.qas with
  | .error e => .error e
  | .ok (adv_sentence, k1) =>
    let adv_context := p.context ++ " ".data ++ adv_sentence
    match update_qas adv_context p.qas with
    | .error e => .error e
    | .ok prs =>
      .ok (⟨adv_context, prs.map Prod.fst⟩, ⟨p.context, prs.map Prod.snd⟩, k1)

/-- The `for article in data['data']` body of the AddSent
`process_squad_file`: a new article with the same title and the processed
paragraphs. -/
def process_article_addsent (tag : Str → List Token) (rng : RNG) (k : Nat)
    (art : Article) : Except PyErr (Article × Article × Nat) :=
  match thread (process_paragraph_addsent tag rng) k art.paragraphs with
  | .error e => .error e
  | .ok (prs, k1) =>
    .ok (⟨art.title, prs.map Prod.fst⟩, ⟨art.title, prs.map Prod.snd⟩, k1)

/-- `process_squad_file(input_file, output_file)` of the AddSent notebook,
file I/O stripped: maps the input corpus to the written corpus (version fixed
to `"v2.0"`), paired with the post-state of the in-memory input corpus. -/
def process_squad_file_addsent (tag : Str → List Token) (rng : RNG)
    (d : SquadData) : Except PyErr (SquadData × SquadData) :=
  match thread (process_article_addsent tag rng) 0 d.data with
  | .error e => .error e
  | .ok (arts, _) =>
    .ok (⟨"v2.0".data, arts.map Prod.fst⟩, ⟨d.version, arts.map Prod.snd⟩)

/-- The apostrophe character (U+0027), spelled via its code point. -/
def apos : Char := Char.ofNat 39

/-- The fixed pool of pre-authored sentences inside
`generate_arbitrary_sentence` (AddAny notebook, cell 3), verbatim. -/
def arbitrary_sentences : List Str := [
  "The weather was unusually warm that day.".data,
  "A new study shows that coffee might be good for your health.".data,
  "Scientists have discovered a new species of butterfly.".data,
  "The local museum is hosting a special exhibition next month.".data,
  "Recent advancements in technology have revolutionized communication.".data,
  "A group of researchers published a groundbreaking paper last week.".data,
  "The city council approved a new urban development plan.".data,
  "Experts predict significant changes in the job market over the next decade.".data,
  "A rare astronomical event will be visible in the night sky this weekend.".data,
  "The national park announced the birth of an endangered species.".data,
  "The restaurant introduced a new menu featuring exotic dishes.".data,
  "A famous actor announced his retirement from the film industry.".data,
  "The university is offering a new course on sustainable energy.".data,
  "A historic building in the city center was recently renovated.".data,
  "The annual music festival attracted thousands of visitors.".data,
  "New research suggests that meditation can improve mental health.".data,
  "The government launched a campaign to promote recycling.".data,
  "A local artist unveiled a new sculpture in the town square.".data,
  "Scientists are exploring the potential of renewable energy sources.".data,
  "The community center is organizing free workshops for residents.".data,
  "A groundbreaking ceremony was held for the new hospital wing.".data,
  "The library extended its hours to accommodate more visitors.".data,
  "A new bakery opened downtown, specializing in gluten-free pastries.".data,
  "The zoo welcomed a pair of rare pandas from China.".data,
  "An ancient manuscript was discovered in a remote monastery.".data,
  ("The local theater is staging a production of Shakespeare".data ++ [apos] ++ "s Hamlet.".data),
  "A tech company unveiled its latest smartphone model.".data,
  "Volunteers cleaned up the beach as part of an environmental initiative.".data,
  "A record-breaking heatwave hit the region last summer.".data,
  ("A charity event raised funds for children".data ++ [apos] ++ "s education.".data),
  "The city hosted an international conference on climate change.".data,
  "A famous chef published a cookbook filled with healthy recipes.".data,
  "The high school celebrated its centennial anniversary.".data,
  "A new bike-sharing program was launched in the city.".data,
  "The botanical garden is hosting a series of gardening workshops.".data,
  "A local author released a bestselling novel this month.".data,
  "The national museum opened a new exhibit on ancient Egypt.".data,
  "A renowned pianist performed at the concert hall last night.".data,
  "The wildlife reserve is home to several endangered species.".data,
  "A startup developed an app to help people with disabilities.".data,
  "The mayor announced plans for a new public transportation system.".data,
  "A research team found evidence of water on Mars.".data,
  "The sports team won their championship game in an exciting finish.".data,
  "A documentary film about climate change received critical acclaim.".data,
  "The community garden is flourishing thanks to volunteer efforts.".data,
  "An art gallery displayed works by local artists this weekend.".data,
  "A historic shipwreck was discovered off the coast.".data,
  "The orchestra played a symphony by Beethoven to a full house.".data,
  "A medical breakthrough offers new hope for cancer patients.".data,
  "The high-speed train service reduced travel time significantly.".data,
  "A new law was passed to protect endangered wildlife.".data,
  "The festival featured performances by international musicians.".data,
  ("A children".data ++ [apos] ++ "s book was released, inspiring young readers worldwide.".data),
  "The local market offers a wide variety of organic produce.".data,
  "A new fitness center opened with state-of-the-art equipment.".data,
  "The weather forecast predicts heavy snowfall this weekend.".data,
  "A unique art installation was set up in the city park.".data,
  "The historic district is known for its beautiful architecture.".data,
  "A charity organization provided aid to disaster-stricken areas.".data,
  "The library hosted a reading event for children.".data,
  "A new app helps users track their carbon footprint.".data,
  "The film festival showcased independent films from around the world.".data,
  "A wildlife photographer captured stunning images of a rare bird.".data,
  "The city introduced a new policy to reduce air pollution.".data,
  "A culinary school offered classes on international cuisine.".data,
  "The marathon attracted runners from various countries.".data,
  "A science fair exhibited innovative projects by students.".data,
  "The book club discussed a popular novel at their latest meeting.".data,
  "A new vaccine was developed to combat a viral outbreak.".data,
  "The theater group performed a modern adaptation of a classic play.".data,
  "A local band released their debut album to positive reviews.".data,
  "The national park is a popular destination for hikers and campers.".data,
  "A new technology aims to make solar energy more efficient.".data,
  "The charity marathon raised funds for cancer research.".data,
  "A famous artist donated a painting to the local museum.".data,
  ("The farmers".data ++ [apos] ++ " market features fresh produce from local farms.".data),
  "A science experiment revealed surprising results about plant growth.".data,
  "The community center offers after-school programs for children.".data,
  "A new species of fish was discovered in the deep sea.".data,
  "The hiking trail offers breathtaking views of the mountains.".data,
  "A robotics competition challenged students to design innovative robots.".data,
  "The town square was decorated for the holiday season.".data,
  "A history professor gave a lecture on ancient civilizations.".data,
  "The aquarium added a new exhibit featuring marine life from the Arctic.".data,
  "A famous author gave a talk at the local bookstore.".data,
  "The cycling race covered challenging terrain and scenic routes.".data,
  "A local brewery released a new craft beer this month.".data,
  "The annual fair featured rides, games, and food stalls.".data,
  "A renewable energy project aims to power the entire community.".data,
  "The local symphony orchestra played a concert under the stars.".data,
  "A wildlife documentary highlighted the plight of endangered species.".data]

/-- `generate_arbitrary_sentence()` (AddAny notebook, cell 3):
`random.choice(arbitrary_sentences)`, consuming one draw. -/
def generate_arbitrary_sentence (rng : RNG) (k : Nat) : Except PyErr (Str × Nat) :=
  pyChoice rng k arbitrary_sentences

/-- The list comprehension
`[generate_arbitrary_sentence() for _ in range(num_sentences)]`
(AddAny notebook, cell 4), consuming one draw per sentence in order. -/
def gen_sentences (rng : RNG) : Nat → Nat → Except PyErr (List Str × Nat)
  | k, 0 => .ok ([], k)
  | k, n + 1 =>
    match generate_arbitrary_sentence rng k with
    | .error e => .error e
    | .ok (s, k1) =>
      match gen_sentences rng k1 n with
      | .error e => .error e
      | .ok (rest, k2) => .ok (s :: rest, k2)

/-- The `for paragraph in article['paragraphs']` body of the AddAny
`process_squad_file` (cell 4): generate `num_sentences` arbitrary sentences,
append them space-joined to the context, and update every QAPair. -/
def process_paragraph_addany (rng : RNG) (num_sentences k : Nat)
    (p : Paragraph) : Except PyErr (Paragraph × Paragraph × Nat) :=
  match gen_sentences rng k num_sentences with
  | .error e => .error e
  | .ok (sents, k1) =>
    let adv_context := p.context ++ " ".data ++ joinSp sents
    match update_qas adv_context p.qas with
    | .error e => .error e
    | .ok prs =>
      .ok (⟨adv_context, prs.map Prod.fst⟩, ⟨p.context, prs.map Prod.snd⟩, k1)

/-- The `for article in data['data']` body of the AddAny
`process_squad_file`. -/
def process_article_addany (rng : RNG) (num_sentences k : Nat)
    (art : Article) : Except PyErr (Article × Article × Nat) :=
  match thread (process_paragraph_addany rng num_sentences) k art.paragraphs with
  | .error e => .error e
  | .ok (prs, k1) =>
    .ok (⟨art.title, prs.map Prod.fst⟩, ⟨art.title, prs.map Prod.snd⟩, k1)

/-- `process_squad_file(input_file, output_file, num_sentences)` of the AddAny
notebook, file I/O stripped: the written corpus (version fixed to `"v2.0"`)
paired with the post-state of the in-memory input corpus. -/
def process_squad_file_addany (rng : RNG) (num_sentences : Nat)
    (d : SquadData) : Except PyErr (SquadData × SquadData) :=
  match thread (process_article_addany rng num_sentences) 0 d.data with
  | .error e => .error e
  | .ok (arts, _) =>
    .ok (⟨"v2.0".data, arts.map Prod.fst⟩, ⟨d.version, arts.map Prod.snd⟩)

/-- The default value of the `num_sentences` parameter in the AddAny
notebook's `def process_squad_file(input_file, output_file, num_sentences=1)`. -/
def num_sentences_default : Nat := 1

/-- Calling the AddAny `process_squad_file` without passing `num_sentences`,
i.e. with its declared default. -/
def process_squad_file_addany_default (rng : RNG) (d : SquadData) :
    Except PyErr (SquadData × SquadData) :=
  process_squad_file_addany rng num_sentences_default d

/-- One row appended to `results` by `evaluate_attack` (evaluation notebook,
cell 10). -/
structure EvaluationRow where
  attack : Str
  question : Str
  context : Str
  ground_truth : Str
  predicted_answer : Str
  exact_match : Bool
  f1_score : Rat
  bleu_score : Rat
  grammatical_errors : Int
  deriving DecidableEq

/-- The external collaborators `evaluate_attack` calls, treated as black-box
oracles per the design spec: the QA model (`get_answer`), the metric
functions built on NLTK (`calculate_f1_score`, `calculate_bleu_score`) and
the spaCy-based `count_grammatical_errors`. -/
structure ExternalFns where
  get_answer : Str → Str → Str
  calculate_f1_score : Str → Str → Rat
  calculate_bleu_score : Str → Str → Rat
  count_grammatical_errors : Str → Int

/-- The body of the `for qa in paragraph['qas']` loop of `evaluate_attack`
(evaluation notebook, cell 10): if the answers list is non-empty, predict an
answer, silently skip the pair when the ground truth does not occur in
`context[:512]`, and otherwise append exactly one row, with
`exact_match = (predicted_answer.lower() == ground_truth.lower())` and the
stored context truncated to 512 characters. -/
def eval_qa (ext : ExternalFns) (attack_name context : Str) (qa : QAPair) :
    List EvaluationRow :=
  match qa.answers with
  | [] => []
  | a :: _ =>
    let ground_truth := a.text
    let predicted_answer := ext.get_answer qa.question context
    if (findSub (context.take 512) ground_truth).isSome then
      [{ attack := attack_name
         question := qa.question
         context := context.take 512
         ground_truth := ground_truth
         predicted_answer := predicted_answer
         exact_match := lowerStr predicted_answer = lowerStr ground_truth
         f1_score := ext.calculate_f1_score predicted_answer ground_truth
         bleu_score := ext.calculate_bleu_score predicted_answer ground_truth
         grammatical_errors := ext.count_grammatical_errors predicted_answer }]
    else []

/-- `evaluate_attack(data, attack_name)` (evaluation notebook, cell 10): the
nested `for article / for paragraph / for qa` loops accumulating `results`. -/
def evaluate_attack (ext : ExternalFns) (data : List Article)
    (attack_name : Str) : List EvaluationRow :=
  data.foldl
    (fun results article =>
      article.paragraphs.foldl
        (fun results paragraph =>
          paragraph.qas.foldl
            (fun results qa => results ++ eval_qa ext attack_name paragraph.context qa)
            results)
        results)
    []

/-- The claim's row-production condition: the QAPair has a non-empty answers
list and its ground-truth (first answer) text occurs within the first 512
characters of the context. -/
def qualifying (context : Str) (qa : QAPair) : Bool :=
  ! qa.answers.isEmpty && (findSub (context.take 512) (first_answer_text qa)).isSome

/-- The claim's description of the emitted row: one `EvaluationRow` whose
`exact_match` is the case-insensitive string equality of the predicted answer
and the ground truth, with the context stored truncated to 512 characters. -/
def claim_row (ext : ExternalFns) (attack_name context : Str) (qa : QAPair) :
    EvaluationRow :=
  { attack := attack_name
    question := qa.question
    context := context.take 512
    ground_truth := first_answer_text qa
    predicted_answer := ext.get_answer qa.question context
    exact_match := lowerStr (ext.get_answer qa.question context) = lowerStr (first_answer_text qa)
    f1_score := ext.calculate_f1_score (ext.get_answer qa.question context) (first_answer_text qa)
    bleu_score := ext.calculate_bleu_score (ext.get_answer qa.question context) (first_answer_text qa)
    grammatical_errors := ext.count_grammatical_errors (ext.get_answer qa.question context) }

/-- `n` is the smallest offset at which `sub` occurs in `s`. -/
def is_first_occurrence (sub s : Str) (n : Nat) : Prop :=
  subAt sub s n ∧ ∀ m < n, ¬ subAt sub s m

/-- The context-containment invariant on a corpus: for every paragraph and
every QAPair with a non-empty answers list,
`context[answer_start : answer_start + len(text)] == text` for the first
answer. -/
def corpus_contained (d : SquadData) : Prop :=
  ∀ art ∈ d.data, ∀ p ∈ art.paragraphs, ∀ qa ∈ p.qas,
    ∀ a rest, qa.answers = a :: rest →
      (p.context.drop a.answer_start).take a.text.length = a.text

/-- In every paragraph of the corpus, every QAPair's first answer is located
at the *first* occurrence of its text in the context. -/
def corpus_first_located (d : SquadData) : Prop :=
  ∀ art ∈ d.data, ∀ p ∈ art.paragraphs, ∀ qa ∈ p.qas,
    ∀ a rest, qa.answers = a :: rest →
      is_first_occurrence a.text p.context a.answer_start

/-- Executable form of the hypothesis that each non-empty first answer text
occurs verbatim in its paragraph's context. -/
def corpus_containedb (d : SquadData) : Bool :=
  d.data.all fun art => art.paragraphs.all fun p => p.qas.all fun qa =>
    match qa.answers with
    | [] => true
    | a :: _ => a.text.isEmpty || (findSub p.context a.text).isSome

/-- An output QAPair agrees with its input QAPair on every field except
possibly the first answer's `answer_start`: the question, id,
`is_impossible` flag, the number of answers, every answer's text, and all
answers beyond the first are unchanged. -/
def qa_fields_preserved (qa qa2 : QAPair) : Prop :=
  qa2.question = qa.question ∧ qa2.id = qa.id ∧
  qa2.is_impossible = qa.is_impossible ∧
  qa2.answers.length = qa.answers.length ∧
  qa2.answers.map Answer.text = qa.answers.map Answer.text ∧
  qa2.answers.drop 1 = qa.answers.drop 1

/-- Paragraph-level correspondence: same number of QAPairs, pairwise
field-preserving. -/
def paragraph_preserved (p p2 : Paragraph) : Prop :=
  p2.qas.length = p.qas.length ∧ List.Forall₂ qa_fields_preserved p.qas p2.qas

/-- Article-level correspondence: same title, paragraphs 1:1. -/
def article_preserved (art art2 : Article) : Prop :=
  art2.title = art.title ∧
  List.Forall₂ paragraph_preserved art.paragraphs art2.paragraphs

/-- Corpus-level correspondence: articles 1:1. -/
def corpus_preserved (d d2 : SquadData) : Prop :=
  List.Forall₂ article_preserved d.data d2.data

/-- The `answer_start` of the first answer of the first QAPair of the first
paragraph of the first article, used to observe concrete runs. -/
def first_answer_start_of (d : SquadData) : Option Nat :=
  match d.data with
  | [] => none
  | art :: _ =>
    match art.paragraphs with
    | [] => none
    | p :: _ =>
      match p.qas with
      | [] => none
      | qa :: _ =>
        match qa.answers with
        | [] => none
        | a :: _ => some a.answer_start

/-- The context of the first paragraph of the first article. -/
def first_context_of (d : SquadData) : Option Str :=
  match d.data with
  | [] => none
  | art :: _ =>
    match art.paragraphs with
    | [] => none
    | p :: _ => some p.context

lemma update_qa_ok {adv : Str} {qa : QAPair} {pr : QAPair × QAPair}
    (h : update_qa adv qa = .ok pr) :
    pr.2 = pr.1 ∧
    ((qa.answers = [] ∧ pr.1 = qa) ∨
      ∃ a rest n, qa.answers = a :: rest ∧ findSub adv a.text = some n ∧
        pr.1 = { qa with answers := { a with answer_start := n } :: rest }) := by
  cases hans : qa.answers with
  | nil =>
    simp only [update_qa, hans] at h
    cases h
    exact ⟨rfl, .inl ⟨rfl, rfl⟩⟩
  | cons a rest =>
    simp only [update_qa, hans] at h
    cases hf : findSub adv a.text with
    | none => rw [hf] at h; simp at h
    | some n =>
      rw [hf] at h
      cases h
      exact ⟨rfl, .inr ⟨a, rest, n, rfl, hf, rfl⟩⟩

lemma update_qa_error {adv : Str} {qa : QAPair} {e : PyErr}
    (h : update_qa adv qa = .error e) : e = .valueError := by
  cases hans : qa.answers with
  | nil => simp [update_qa, hans] at h
  | cons a rest =>
    simp only [update_qa, hans] at h
    cases hf : findSub adv a.text with
    | none => rw [hf] at h; cases h; rfl
    | some n => rw [hf] at h; simp at h

lemma update_qas_ok {adv : Str} :
    ∀ {qas : List QAPair} {prs : List (QAPair × QAPair)},
      update_qas adv qas = .ok prs →
      List.Forall₂ (fun qa pr => update_qa adv qa = .ok pr) qas prs
  | [], prs, h => by
    simp only [update_qas] at h
    cases h
    exact .nil
  | qa :: rest, prs, h => by
    simp only [update_qas] at h
    cases hq : update_qa adv qa with
    | error e => rw [hq] at h; simp at h
    | ok pr =>
      rw [hq] at h
      cases hr : update_qas adv rest with
      | error e => rw [hr] at h; simp at h
      | ok tl =>
        rw [hr] at h
        cases h
        exact .cons hq (update_qas_ok hr)

/-- If some QAPair's non-empty first answer does not occur in the new
context, the whole loop aborts with the uncaught `ValueError`. -/
lemma update_qas_error_of_missing {adv : Str} :
    ∀ {qas : List QAPair},
      (∃ qa ∈ qas, ∃ a rest, qa.answers = a :: rest ∧ findSub adv a.text = none) →
      update_qas adv qas = .error .valueError
  | [], h => by
    obtain ⟨qa, hqa, -⟩ := h
    exact absurd hqa (by simp)
  | qa0 :: rest, h => by
    obtain ⟨qa, hqa, a, r, hans, hf⟩ := h
    rcases List.mem_cons.mp hqa with rfl | hmem
    · have : update_qa adv qa = .error .valueError := by
        simp only [update_qa, hans, hf]
      simp only [update_qas, this]
    · cases hq : update_qa adv qa0 with
      | error e =>
        have := update_qa_error hq
        subst this
        simp only [update_qas, hq]
      | ok pr =>
        have hrec : update_qas adv rest = .error .valueError :=
          update_qas_error_of_missing ⟨qa, hmem, a, r, hans, hf⟩
        simp only [update_qas, hq, hrec]

lemma forall₂_mem_right {R : α → β → Prop} {l₁ : List α} {l₂ : List β}
    (h : List.Forall₂ R l₁ l₂) : ∀ b ∈ l₂, ∃ a ∈ l₁, R a b := by
  induction h with
  | nil => intro b hb; simp at hb
  | cons hr _ ih =>
    intro b hb
    rcases List.mem_cons.mp hb with rfl | hb2
    · exact ⟨_, List.mem_cons_self _ _, hr⟩
    · rcases ih b hb2 with ⟨a, ha, hra⟩
      exact ⟨a, List.mem_cons_of_mem _ ha, hra⟩

lemma forall₂_mem_left {R : α → β → Prop} {l₁ : List α} {l₂ : List β}
    (h : List.Forall₂ R l₁ l₂) : ∀ a ∈ l₁, ∃ b ∈ l₂, R a b := by
  induction h with
  | nil => intro a ha; simp at ha
  | cons hr _ ih =>
    intro a ha
    rcases List.mem_cons.mp ha with rfl | ha2
    · exact ⟨_, List.mem_cons_self _ _, hr⟩
    · rcases ih a ha2 with ⟨b, hb, hrb⟩
      exact ⟨b, List.mem_cons_of_mem _ hb, hrb⟩

lemma forall₂_map_right {R : α → γ → Prop} {f : β → γ} {l₁ : List α} {l₂ : List β}
    (h : List.Forall₂ (fun a b => R a (f b)) l₁ l₂) :
    List.Forall₂ R l₁ (l₂.map f) := by
  induction h with
  | nil => exact .nil
  | cons hr _ ih => exact .cons hr ih

lemma thread_ok_forall₂ {f : Nat → α → Except PyErr (β × β × Nat)} :
    ∀ {k : Nat} {l : List α} {prs : List (β × β)} {k2 : Nat},
      thread f k l = .ok (prs, k2) →
      List.Forall₂ (fun a pr => ∃ k0 k1, f k0 a = .ok (pr.1, pr.2, k1)) l prs
  | k, [], prs, k2, h => by
    simp only [thread] at h
    cases h
    exact .nil
  | k, a :: rest, prs, k2, h => by
    simp only [thread] at h
    split at h
    · simp at h
    · rename_i b1 b2 k1 hf
      split at h
      · simp at h
      · rename_i tl k3 ht
        cases h
        exact .cons ⟨k, k1, hf⟩ (thread_ok_forall₂ ht)

lemma getD_eq_get_of_lt {l : List α} {n : Nat} (d : α) (h : n < l.length) :
    l.getD n d = l.get ⟨n, h⟩ := by
  induction l generalizing n with
  | nil => simp at h
  | cons x t ih =>
    cases n with
    | zero => rfl
    | succ m => exact ih (Nat.lt_of_succ_lt_succ h)

lemma pyChoice_ok_getD {rng : RNG} {k : Nat} {xs : List α} {x : α} {k2 : Nat}
    (d : α) (h : pyChoice rng k xs = .ok (x, k2)) :
    xs ≠ [] ∧ k2 = k + 1 ∧ x = xs.getD (rng k % xs.length) d := by
  obtain ⟨hlen, hk, hx⟩ := pyChoice_ok h
  refine ⟨List.length_pos.mp hlen, hk, ?_⟩
  rw [getD_eq_get_of_lt d (Nat.mod_lt (rng k) hlen)]
  exact hx

lemma arbitrary_sentences_length_pos : 0 < arbitrary_sentences.length := by
  simp [arbitrary_sentences]

/-- `gen_sentences` is total and fully characterized: it always succeeds and
returns, for each of the `n` successive draws, the pool sentence selected by
that draw. -/
lemma gen_sentences_eq (rng : RNG) :
    ∀ (n k : Nat),
      gen_sentences rng k n =
        .ok ((List.range n).map
          (fun j => arbitrary_sentences.getD (rng (k + j) % arbitrary_sentences.length) []),
          k + n)
  | 0, k => by simp [gen_sentences]
  | n + 1, k => by
    have hrec := gen_sentences_eq rng n (k + 1)
    have hchoice : generate_arbitrary_sentence rng k =
        .ok (arbitrary_sentences.getD (rng k % arbitrary_sentences.length) [], k + 1) := by
      unfold generate_arbitrary_sentence
      cases hxs : arbitrary_sentences with
      | nil => exact absurd hxs (by simpa using List.length_pos.mp arbitrary_sentences_length_pos)
      | cons y t =>
        have hlt : rng k % (y :: t).length < (y :: t).length :=
          Nat.mod_lt (rng k) (Nat.succ_pos t.length)
        simp only [pyChoice, Except.ok.injEq, Prod.mk.injEq, and_true]
        exact (getD_eq_get_of_lt [] hlt).symm
    simp only [gen_sentences, hchoice, hrec, Except.ok.injEq, Prod.mk.injEq]
    refine ⟨?_, by omega⟩
    rw [List.range_succ_eq_map]
    simp only [List.map_cons, List.map_map, Nat.add_zero]
    congr 1
    apply List.map_congr_left
    intro j hj
    simp only [Function.comp_apply]
    have : k + 1 + j = k + (j + 1) := by omega
    rw [this]

lemma gen_sentences_ok {rng : RNG} {k n : Nat} {sents : List Str} {k2 : Nat}
    (h : gen_sentences rng k n = .ok (sents, k2)) :
    sents.length = n ∧ (∀ s ∈ sents, s ∈ arbitrary_sentences) ∧ k2 = k + n := by
  rw [gen_sentences_eq rng n k] at h
  cases h
  refine ⟨by simp, ?_, rfl⟩
  intro s hs
  rcases List.mem_map.mp hs with ⟨j, -, rfl⟩
  rw [getD_eq_get_of_lt [] (Nat.mod_lt _ arbitrary_sentences_length_pos)]
  exact List.get_mem _ _ _

lemma process_paragraph_addsent_ok {tag : Str → List Token} {rng : RNG}
    {k : Nat} {p np pp : Paragraph} {k2 : Nat}
    (h : process_paragraph_addsent tag rng k p = .ok (np, pp, k2)) :
    ∃ adv prs,
      update_qas (p.context ++ " ".data ++ adv) p.qas = .ok prs ∧
      np = ⟨p.context ++ " ".data ++ adv, prs.map Prod.fst⟩ ∧
      pp = ⟨p.context, prs.map Prod.snd⟩ := by
  simp only [process_paragraph_addsent] at h
  split at h
  · simp at h
  · rename_i adv k1 hg
    split at h
    · simp at h
    · rename_i prs hu
      cases h
      exact ⟨adv, prs, hu, rfl, rfl⟩

lemma process_paragraph_addany_ok {rng : RNG} {num k : Nat}
    {p np pp : Paragraph} {k2 : Nat}
    (h : process_paragraph_addany rng num k p = .ok (np, pp, k2)) :
    ∃ sents prs k1,
      gen_sentences rng k num = .ok (sents, k1) ∧
      update_qas (p.context ++ " ".data ++ joinSp sents) p.qas = .ok prs ∧
      np = ⟨p.context ++ " ".data ++ joinSp sents, prs.map Prod.fst⟩ ∧
      pp = ⟨p.context, prs.map Prod.snd⟩ := by
  simp only [process_paragraph_addany] at h
  split at h
  · simp at h
  · rename_i sents k1 hg
    split at h
    · simp at h
    · rename_i prs hu
      cases h
      exact ⟨sents, prs, k2, hg, hu, rfl, rfl⟩

lemma process_article_addsent_ok {tag : Str → List Token} {rng : RNG}
    {k : Nat} {art na pa : Article} {k2 : Nat}
    (h : process_article_addsent tag rng k art = .ok (na, pa, k2)) :
    ∃ prs k1,
      thread (process_paragraph_addsent tag rng) k art.paragraphs = .ok (prs, k1) ∧
      na = ⟨art.title, prs.map Prod.fst⟩ ∧
      pa = ⟨art.title, prs.map Prod.snd⟩ := by
  simp only [process_article_addsent] at h
  split at h
  · simp at h
  · rename_i prs k1 ht
    cases h
    exact ⟨prs, k2, ht, rfl, rfl⟩

lemma process_article_addany_ok {rng : RNG} {num k : Nat}
    {art na pa : Article} {k2 : Nat}
    (h : process_article_addany rng num k art = .ok (na, pa, k2)) :
    ∃ prs k1,
      thread (process_paragraph_addany rng num) k art.paragraphs = .ok (prs, k1) ∧
      na = ⟨art.title, prs.map Prod.fst⟩ ∧
      pa = ⟨art.title, prs.map Prod.snd⟩ := by
  simp only [process_article_addany] at h
  split at h
  · simp at h
  · rename_i prs k1 ht
    cases h
    exact ⟨prs, k2, ht, rfl, rfl⟩

lemma process_squad_file_addsent_ok {tag : Str → List Token} {rng : RNG}
    {d out post : SquadData}
    (h : process_squad_file_addsent tag rng d = .ok (out, post)) :
    ∃ arts k1,
      thread (process_article_addsent tag rng) 0 d.data = .ok (arts, k1) ∧
      out = ⟨"v2.0".data, arts.map Prod.fst⟩ ∧
      post = ⟨d.version, arts.map Prod.snd⟩ := by
  simp only [process_squad_file_addsent] at h
  split at h
  · simp at h
  · rename_i arts k1 ht
    cases h
    exact ⟨arts, k1, ht, rfl, rfl⟩

lemma process_squad_file_addany_ok {rng : RNG} {num : Nat} {d out post : SquadData}
    (h : process_squad_file_addany rng num d = .ok (out, post)) :
    ∃ arts k1,
      thread (process_article_addany rng num) 0 d.data = .ok (arts, k1) ∧
      out = ⟨"v2.0".data, arts.map Prod.fst⟩ ∧
      post = ⟨d.version, arts.map Prod.snd⟩ := by
  simp only [process_squad_file_addany] at h
  split at h
  · simp at h
  · rename_i arts k1 ht
    cases h
    exact ⟨arts, k1, ht, rfl, rfl⟩

/-- Every QAPair emitted by the update loop carries the first-occurrence
offset of its (unchanged) first answer text in the new context. -/
lemma update_qas_out_located {adv : Str} {qas : List QAPair}
    {prs : List (QAPair × QAPair)} (h : update_qas adv qas = .ok prs) :
    ∀ qa ∈ prs.map Prod.fst, ∀ a rest, qa.answers = a :: rest →
      is_first_occurrence a.text adv a.answer_start := by
  intro qa hqa a rest hans
  rcases List.mem_map.mp hqa with ⟨pr, hpr, rfl⟩
  rcases forall₂_mem_right (update_qas_ok h) pr hpr with ⟨qa0, -, hq⟩
  rcases (update_qa_ok hq).2 with ⟨hnil, heq⟩ | ⟨a0, rest0, n, hans0, hf, heq⟩
  · rw [heq, hnil] at hans
    simp at hans
  · rw [heq] at hans
    simp only [List.cons.injEq] at hans
    obtain ⟨ha, -⟩ := hans
    subst ha
    exact (findSub_eq_some_iff _ _ _).mp hf

lemma update_qa_preserves {adv : Str} {qa : QAPair} {pr : QAPair × QAPair}
    (h : update_qa adv qa = .ok pr) : qa_fields_preserved qa pr.1 := by
  rcases (update_qa_ok h).2 with ⟨hnil, heq⟩ | ⟨a0, rest0, n, hans0, hf, heq⟩
  · rw [heq]
    exact ⟨rfl, rfl, rfl, rfl, rfl, rfl⟩
  · rw [heq]
    unfold qa_fields_preserved
    refine ⟨rfl, rfl, rfl, ?_, ?_, ?_⟩ <;> simp [hans0]

lemma update_qas_preserves {adv : Str} {qas : List QAPair}
    {prs : List (QAPair × QAPair)} (h : update_qas adv qas = .ok prs) :
    List.Forall₂ qa_fields_preserved qas (prs.map Prod.fst) :=
  forall₂_map_right
    (List.Forall₂.imp (fun _ _ hq => update_qa_preserves hq) (update_qas_ok h))

lemma process_paragraph_addsent_preserves {tag : Str → List Token} {rng : RNG}
    {k : Nat} {p np pp : Paragraph} {k2 : Nat}
    (h : process_paragraph_addsent tag rng k p = .ok (np, pp, k2)) :
    paragraph_preserved p np := by
  obtain ⟨adv, prs, hu, rfl, -⟩ := process_paragraph_addsent_ok h
  exact ⟨((update_qas_preserves hu).length_eq).symm, update_qas_preserves hu⟩

lemma process_paragraph_addany_preserves {rng : RNG} {num k : Nat}
    {p np pp : Paragraph} {k2 : Nat}
    (h : process_paragraph_addany rng num k p = .ok (np, pp, k2)) :
    paragraph_preserved p np := by
  obtain ⟨sents, prs, k1, hg, hu, rfl, -⟩ := process_paragraph_addany_ok h
  exact ⟨((update_qas_preserves hu).length_eq).symm, update_qas_preserves hu⟩

lemma thread_preserves {f : Nat → α → Except PyErr (β × β × Nat)}
    {P : α → β → Prop} {k : Nat} {l : List α} {prs : List (β × β)} {k2 : Nat}
    (h : thread f k l = .ok (prs, k2))
    (hP : ∀ k0 a b1 b2 k1, f k0 a = .ok (b1, b2, k1) → P a b1) :
    List.Forall₂ P l (prs.map Prod.fst) := by
  apply forall₂_map_right
  apply List.Forall₂.imp ?_ (thread_ok_forall₂ h)
  rintro a pr ⟨k0, k1, hf⟩
  exact hP k0 a pr.1 pr.2 k1 hf

lemma process_article_addsent_preserves {tag : Str → List Token} {rng : RNG}
    {k : Nat} {art na pa : Article} {k2 : Nat}
    (h : process_article_addsent tag rng k art = .ok (na, pa, k2)) :
    article_preserved art na := by
  obtain ⟨prs, k1, ht, rfl, -⟩ := process_article_addsent_ok h
  exact ⟨rfl, thread_preserves ht
    (fun _ _ _ _ _ hf => process_paragraph_addsent_preserves hf)⟩

lemma process_article_addany_preserves {rng : RNG} {num k : Nat}
    {art na pa : Article} {k2 : Nat}
    (h : process_article_addany rng num k art = .ok (na, pa, k2)) :
    article_preserved art na := by
  obtain ⟨prs, k1, ht, rfl, -⟩ := process_article_addany_ok h
  exact ⟨rfl, thread_preserves ht
    (fun _ _ _ _ _ hf => process_paragraph_addany_preserves hf)⟩

lemma addsent_preserves {tag : Str → List Token} {rng : RNG} {d out post : SquadData}
    (h : process_squad_file_addsent tag rng d = .ok (out, post)) :
    corpus_preserved d out := by
  obtain ⟨arts, k1, ht, rfl, -⟩ := process_squad_file_addsent_ok h
  exact thread_preserves ht
    (fun _ _ _ _ _ hf => process_article_addsent_preserves hf)

lemma addany_preserves {rng : RNG} {num : Nat} {d out post : SquadData}
    (h : process_squad_file_addany rng num d = .ok (out, post)) :
    corpus_preserved d out := by
  obtain ⟨arts, k1, ht, rfl, -⟩ := process_squad_file_addany_ok h
  exact thread_preserves ht
    (fun _ _ _ _ _ hf => process_article_addany_preserves hf)

lemma addsent_out_located {tag : Str → List Token} {rng : RNG} {d out post : SquadData}
    (h : process_squad_file_addsent tag rng d = .ok (out, post)) :
    corpus_first_located out := by
  obtain ⟨arts, k1, ht, rfl, -⟩ := process_squad_file_addsent_ok h
  intro art hart p hp qa hqa a rest hans
  rcases List.mem_map.mp hart with ⟨prA, hprA, rfl⟩
  rcases forall₂_mem_right (thread_ok_forall₂ ht) prA hprA with ⟨artIn, -, k0, kk, hart_ok⟩
  obtain ⟨prsP, kp, htp, hna, -⟩ := process_article_addsent_ok hart_ok
  rw [hna] at hp
  rcases List.mem_map.mp hp with ⟨prP, hprP, rfl⟩
  rcases forall₂_mem_right (thread_ok_forall₂ htp) prP hprP with ⟨pin, -, j0, j1, hp_ok⟩
  obtain ⟨adv, prsQ, hu, hnp, -⟩ := process_paragraph_addsent_ok hp_ok
  rw [hnp] at hqa ⊢
  exact update_qas_out_located hu qa hqa a rest hans

lemma addany_out_located {rng : RNG} {num : Nat} {d out post : SquadData}
    (h : process_squad_file_addany rng num d = .ok (out, post)) :
    corpus_first_located out := by
  obtain ⟨arts, k1, ht, rfl, -⟩ := process_squad_file_addany_ok h
  intro art hart p hp qa hqa a rest hans
  rcases List.mem_map.mp hart with ⟨prA, hprA, rfl⟩
  rcases forall₂_mem_right (thread_ok_forall₂ ht) prA hprA with ⟨artIn, -, k0, kk, hart_ok⟩
  obtain ⟨prsP, kp, htp, hna, -⟩ := process_article_addany_ok hart_ok
  rw [hna] at hp
  rcases List.mem_map.mp hp with ⟨prP, hprP, rfl⟩
  rcases forall₂_mem_right (thread_ok_forall₂ htp) prP hprP with ⟨pin, -, j0, j1, hp_ok⟩
  obtain ⟨sents, prsQ, jj, hg, hu, hnp, -⟩ := process_paragraph_addany_ok hp_ok
  rw [hnp] at hqa ⊢
  exact update_qas_out_located hu qa hqa a rest hans

/-- A QAPair whose first answer already sits at the first occurrence of its
text in the original context passes through the update loop unchanged when
the context only grows by a suffix. -/
lemma update_qas_mem_unchanged {ctx suffix : Str} {qas : List QAPair}
    {prs : List (QAPair × QAPair)}
    (hu : update_qas (ctx ++ suffix) qas = .ok prs) :
    ∀ qa ∈ qas, ∀ a rest, qa.answers = a :: rest →
      findSub ctx a.text = some a.answer_start → qa ∈ prs.map Prod.fst := by
  intro qa hqa a rest hans hfirst
  rcases forall₂_mem_left (update_qas_ok hu) qa hqa with ⟨pr, hpr, hq⟩
  rcases (update_qa_ok hq).2 with ⟨hnil, heq⟩ | ⟨a0, rest0, n, hans0, hf, heq⟩
  · rw [hans] at hnil
    simp at hnil
  · have hcons : a :: rest = a0 :: rest0 := hans.symm.trans hans0
    injection hcons with h1 h2
    subst h1
    subst h2
    have h3 : findSub (ctx ++ suffix) a.text = some a.answer_start :=
      findSub_append hfirst
    have hn : n = a.answer_start := Option.some.inj (hf.symm.trans h3)
    subst hn
    have hpr1 : pr.1 = qa := by
      rw [heq]
      show ({ qa with answers := a :: rest } : QAPair) = qa
      rw [← hans]
    rw [← hpr1]
    exact List.mem_map_of_mem Prod.fst hpr

lemma foldl_append_bind {g : α → List β} :
    ∀ (l : List α) (acc : List β),
      l.foldl (fun r x => r ++ g x) acc = acc ++ l.flatMap g
  | [], acc => by simp
  | x :: t, acc => by
    simp only [List.foldl_cons, List.flatMap_cons]
    rw [foldl_append_bind t]
    simp [List.append_assoc]

lemma evaluate_attack_bind (ext : ExternalFns) (data : List Article)
    (attack_name : Str) :
    evaluate_attack ext data attack_name =
      data.flatMap fun article => article.paragraphs.flatMap fun paragraph =>
        paragraph.qas.flatMap (eval_qa ext attack_name paragraph.context) := by
  unfold evaluate_attack
  have hqas : ∀ (paragraph : Paragraph) (acc : List EvaluationRow),
      paragraph.qas.foldl
        (fun r qa => r ++ eval_qa ext attack_name paragraph.context qa) acc
        = acc ++ paragraph.qas.flatMap (eval_qa ext attack_name paragraph.context) :=
    fun paragraph acc => foldl_append_bind _ _
  have hparas :
      (fun (r : List EvaluationRow) (paragraph : Paragraph) =>
        paragraph.qas.foldl
          (fun r2 qa => r2 ++ eval_qa ext attack_name paragraph.context qa) r)
      = fun r paragraph =>
          r ++ paragraph.qas.flatMap (eval_qa ext attack_name paragraph.context) := by
    funext r paragraph
    exact hqas paragraph r
  rw [hparas]
  have harts :
      (fun (r : List EvaluationRow) (article : Article) =>
        article.paragraphs.foldl
          (fun r2 paragraph =>
            r2 ++ paragraph.qas.flatMap (eval_qa ext attack_name paragraph.context)) r)
      = fun r article =>
          r ++ article.paragraphs.flatMap
            (fun paragraph => paragraph.qas.flatMap (eval_qa ext attack_name paragraph.context)) := by
    funext r article
    exact foldl_append_bind _ _
  rw [harts, foldl_append_bind]
  simp

lemma eval_qa_eq (ext : ExternalFns) (attack_name context : Str) (qa : QAPair) :
    eval_qa ext attack_name context qa =
      if qualifying context qa then [claim_row ext attack_name context qa]
      else [] := by
  cases hans : qa.answers with
  | nil => simp [eval_qa, qualifying, hans]
  | cons a rest => simp [eval_qa, qualifying, claim_row, first_answer_text, hans]

lemma flatMap_if_filter_map {p : α → Bool} {f : α → β} :
    ∀ l : List α,
      (l.flatMap fun a => if p a then [f a] else []) = (l.filter p).map f
  | [] => by simp
  | x :: t => by
    by_cases hx : p x
    · simp [List.flatMap_cons, List.filter_cons, hx, flatMap_if_filter_map t]
    · simp [List.flatMap_cons, List.filter_cons, hx, flatMap_if_filter_map t]

/-- Claim C9: `evaluate_attack` emits exactly one `EvaluationRow` per QAPair
that has a non-empty answers list and whose ground-truth answer text occurs
within the first 512 characters of the paragraph's context (`qualifying`);
all other QAPairs contribute no row and no error, and each emitted row is
`claim_row`, whose `exact_match` field is the case-insensitive string
equality of the predicted answer and the ground truth. -/
theorem C9_evaluation_row_rule (ext : ExternalFns) (data : List Article)
    (attack_name : Str) :
    evaluate_attack ext data attack_name =
      data.flatMap fun article => article.paragraphs.flatMap fun paragraph =>
        (paragraph.qas.filter (qualifying paragraph.context)).map
          (claim_row ext attack_name paragraph.context) := by
  rw [evaluate_attack_bind]
  refine congrArg (List.flatMap data) (funext fun article => ?_)
  refine congrArg (List.flatMap article.paragraphs) (funext fun paragraph => ?_)
  have h : (eval_qa ext attack_name paragraph.context) = fun qa =>
      if qualifying paragraph.context qa
      then [claim_row ext attack_name paragraph.context qa] else [] :=
    funext (eval_qa_eq ext attack_name paragraph.context)
  rw [h]
  exact flatMap_if_filter_map _

/-- Claim C4: for every paragraph produced by either pipeline, every output
QAPair with a non-empty answers list has `answer_start` equal to the
*smallest* index at which its answer text occurs in the new context — even
when the appended suffix contains further occurrences. -/
theorem C4_relocation_first_occurrence :
    (∀ tag rng d out post, process_squad_file_addsent tag rng d = .ok (out, post) →
      corpus_first_located out) ∧
    (∀ rng num d out post, process_squad_file_addany rng num d = .ok (out, post) →
      corpus_first_located out) :=
  ⟨fun _ _ _ _ _ h => addsent_out_located h,
   fun _ _ _ _ _ h => addany_out_located h⟩

/-- Claim C1: for every input corpus in which each non-empty first answer
text occurs verbatim in its paragraph's context, every paragraph produced by
either pipeline satisfies
`context[answer_start : answer_start + len(text)] == text` for every QAPair
with a non-empty answers list. -/
theorem C1_context_containment (d : SquadData)
    (hd : corpus_containedb d = true) :
    (∀ tag rng out post, process_squad_file_addsent tag rng d = .ok (out, post) →
      corpus_contained out) ∧
    (∀ rng num out post, process_squad_file_addany rng num d = .ok (out, post) →
      corpus_contained out) := by
  constructor
  · intro tag rng out post h art hart p hp qa hqa a rest hans
    exact (addsent_out_located h art hart p hp qa hqa a rest hans).1
  · intro rng num out post h art hart p hp qa hqa a rest hans
    exact (addany_out_located h art hart p hp qa hqa a rest hans).1

/-- Claim C10: for every input corpus in which each non-empty first answer
text occurs verbatim in its paragraph's context, both pipelines preserve the
QAPair multiset exactly: articles/paragraphs correspond 1:1, every output
paragraph has exactly as many QAPairs as its input paragraph, and each
output QAPair agrees with its input QAPair on every field except possibly
the first answer's `answer_start`. -/
theorem C10_qapair_preservation (d : SquadData)
    (hd : corpus_containedb d = true) :
    (∀ tag rng out post, process_squad_file_addsent tag rng d = .ok (out, post) →
      corpus_preserved d out) ∧
    (∀ rng num out post, process_squad_file_addany rng num d = .ok (out, post) →
      corpus_preserved d out) :=
  ⟨fun _ _ _ _ h => addsent_preserves h, fun _ _ _ _ h => addany_preserves h⟩

/-- Claim C7 (amended): for the append-only strategies, a QAPair whose
`answer_start` points at the *first* occurrence of its answer text in the
original context appears unchanged (same `answer_start`) in the output
paragraph. -/
theorem C7_pure_suffix_offset_preserved :
    (∀ rng num k p np pp k2,
      process_paragraph_addany rng num k p = .ok (np, pp, k2) →
      ∀ qa ∈ p.qas, ∀ a rest, qa.answers = a :: rest →
        findSub p.context a.text = some a.answer_start → qa ∈ np.qas) ∧
    (∀ tag rng k p np pp k2,
      process_paragraph_addsent tag rng k p = .ok (np, pp, k2) →
      ∀ qa ∈ p.qas, ∀ a rest, qa.answers = a :: rest →
        findSub p.context a.text = some a.answer_start → qa ∈ np.qas) := by
  constructor
  · intro rng num k p np pp k2 h qa hqa a rest hans hfirst
    obtain ⟨sents, prs, k1, hg, hu, rfl, -⟩ := process_paragraph_addany_ok h
    have hu2 : update_qas (p.context ++ (" ".data ++ joinSp sents)) p.qas = .ok prs := by
      rw [← List.append_assoc]
      exact hu
    exact update_qas_mem_unchanged hu2 qa hqa a rest hans hfirst
  · intro tag rng k p np pp k2 h qa hqa a rest hans hfirst
    obtain ⟨adv, prs, hu, rfl, -⟩ := process_paragraph_addsent_ok h
    have hu2 : update_qas (p.context ++ (" ".data ++ adv)) p.qas = .ok prs := by
      rw [← List.append_assoc]
      exact hu
    exact update_qas_mem_unchanged hu2 qa hqa a rest hans hfirst

/-- Claim C3 (amended): when a QAPair's non-empty first answer text does not
occur in the new context, the code does *not* drop the pair and recover: the
uncaught `ValueError` from `str.index` aborts the whole run. Conversely a
successful run drops nothing (one output QAPair per input QAPair), so no
QAPair with an invalid offset is ever emitted. -/
theorem C3_missing_span_aborts :
    (∀ adv_context qas qa a rest,
      qa ∈ qas → qa.answers = a :: rest → findSub adv_context a.text = none →
      update_qas adv_context qas = .error .valueError) ∧
    (∀ adv_context qas prs,
      update_qas adv_context qas = .ok prs →
      (prs.map Prod.fst).length = qas.length) := by
  constructor
  · intro adv qas qa a rest hqa hans hf
    exact update_qas_error_of_missing ⟨qa, hqa, a, rest, hans, hf⟩
  · intro adv qas prs h
    simpa using ((update_qas_ok h).length_eq).symm

/-- The sentence templates described by the claim:
`"However, " + kw + " is not related to " + answer + "."` when the chosen
QAPair has a non-empty (first) answer text, and
`"However, " + kw + " is not relevant to this context."` otherwise. -/
def adv_template (qa : QAPair) (kw : Str) : Str :=
  if (first_answer_text qa).isEmpty then
    "However, ".data ++ kw ++ " is not relevant to this context.".data
  else
    "However, ".data ++ kw ++ " is not related to ".data
      ++ first_answer_text qa ++ ".".data

/-- Placeholder QAPair used as the (never-relevant) default when observing
`random.choice` through `List.getD`. -/
def dummy_qa : QAPair := ⟨[], [], false, []⟩

/-- Claim C6: when `generate_adversarial_sentence` succeeds, the chosen
QAPair is the one selected by the first draw, its key-word list is exactly
the noun/verb/adjective tokens of its question (falling back to all
non-punctuation tokens when that list is empty), the emitted sentence is the
claim's template applied to the key word selected by the second draw, and
two draws are consumed. -/
theorem C6_addsent_keywords_template (tag : Str → List Token) (rng : RNG)
    (k : Nat) (qas : List QAPair) (s : Str) (k2 : Nat)
    (h : generate_adversarial_sentence tag rng k qas = .ok (s, k2)) :
    qas ≠ [] ∧ k2 = k + 2 ∧
    question_key_words tag (qas.getD (rng k % qas.length) dummy_qa).question ≠ [] ∧
    s = adv_template (qas.getD (rng k % qas.length) dummy_qa)
          ((question_key_words tag
              (qas.getD (rng k % qas.length) dummy_qa).question).getD
            (rng (k + 1) %
              (question_key_words tag
                (qas.getD (rng k % qas.length) dummy_qa).question).length) []) ∧
    ∀ q, question_key_words tag q =
      (if (((tag q).filter pos_is_nva).map Token.text).isEmpty
       then ((tag q).filter pos_not_punct).map Token.text
       else ((tag q).filter pos_is_nva).map Token.text) := by
  simp only [generate_adversarial_sentence] at h
  split at h
  · simp at h
  · rename_i qa k1 hchoice
    obtain ⟨hne, hk1, hqa⟩ := pyChoice_ok_getD dummy_qa hchoice
    subst hk1
    subst hqa
    split at h
    · rename_i hcond
      split at h
      · simp at h
      · rename_i kw kk hkw
        obtain ⟨hkne, hkk, hkwv⟩ := pyChoice_ok_getD ([] : Str) hkw
        subst hkk
        cases h
        subst hkwv
        exact ⟨hne, rfl, hkne, by simp only [adv_template]; rw [if_pos hcond], fun q => rfl⟩
    · rename_i hcond
      split at h
      · simp at h
      · rename_i kw kk hkw
        obtain ⟨hkne, hkk, hkwv⟩ := pyChoice_ok_getD ([] : Str) hkw
        subst hkk
        cases h
        subst hkwv
        exact ⟨hne, rfl, hkne, by simp only [adv_template]; rw [if_neg hcond], fun q => rfl⟩

/-- Claim C5 (amended): the AddAny strategy selects `num_sentences` sentences
(the function's declared default is `num_sentences = 1`; the recorded
dataset-creation call passes `num_sentences = 2`) from the fixed pre-authored
pool, one independent random draw per sentence with replacement (any pool
sentence is reachable by every draw, so repeats are possible), and the new
context is the original context followed by `" "` and the selected sentences
joined by `" "`. -/
theorem C5_addany_selection :
    (∀ (rng : RNG) (n k : Nat),
      gen_sentences rng k n =
        .ok ((List.range n).map
          (fun j => arbitrary_sentences.getD
            (rng (k + j) % arbitrary_sentences.length) []), k + n)) ∧
    (∀ rng num k p np pp k2,
      process_paragraph_addany rng num k p = .ok (np, pp, k2) →
      ∃ sents, sents.length = num ∧ (∀ s ∈ sents, s ∈ arbitrary_sentences) ∧
        np.context = p.context ++ " ".data ++ joinSp sents) ∧
    (∀ rng d, process_squad_file_addany_default rng d =
      process_squad_file_addany rng 1 d) ∧
    (∀ (i : Fin arbitrary_sentences.length) (n k : Nat), ∃ rng : RNG,
      gen_sentences rng k n =
        .ok (List.replicate n (arbitrary_sentences.get i), k + n)) := by
  refine ⟨fun rng n k => gen_sentences_eq rng n k, ?_, fun rng d => rfl, ?_⟩
  · intro rng num k p np pp k2 h
    obtain ⟨sents, prs, k1, hg, hu, rfl, -⟩ := process_paragraph_addany_ok h
    obtain ⟨hlen, hmem, -⟩ := gen_sentences_ok hg
    exact ⟨sents, hlen, hmem, rfl⟩
  · intro i n k
    refine ⟨fun _ => i.val, ?_⟩
    rw [gen_sentences_eq]
    have hmod : i.val % arbitrary_sentences.length = i.val :=
      Nat.mod_eq_of_lt i.isLt
    congr 1
    refine Prod.ext ?_ rfl
    show (List.range n).map
        (fun _ => arbitrary_sentences.getD (i.val % arbitrary_sentences.length) [])
        = List.replicate n (arbitrary_sentences.get i)
    apply List.eq_replicate_iff.mpr
    constructor
    · simp
    · intro b hb
      rcases List.mem_map.mp hb with ⟨j, -, rfl⟩
      rw [hmod, getD_eq_get_of_lt [] i.isLt]

/-- The constant-zero draw stream, for observing concrete runs. -/
def rngZ : RNG := fun _ => 0

/-- A spaCy oracle returning no tokens for any input (an empty parse). -/
def tag_none : Str → List Token := fun _ => []

/-- A spaCy oracle tagging every question as the single noun `color`. -/
def tag_color : Str → List Token := fun _ => [⟨"color".data, "NOUN".data⟩]

/-- The first sentence of the AddAny pool. -/
def sent0 : Str := "The weather was unusually warm that day.".data

/-- A QAPair with an empty answers list whose question parses to no tokens. -/
def qa8 : QAPair := ⟨"id8".data, "??".data, true, []⟩

/-- A QAPair whose first answer text `a` occurs in its context `"a a"` at
offset 0 and at offset 2, with `answer_start` pointing at the *second*
occurrence. -/
def qa2 : QAPair := ⟨"id2".data, "q".data, false, [⟨"a".data, 2⟩]⟩

/-- One-article corpus around `qa2`, context `"a a"`. -/
def d2 : SquadData := ⟨"v1.1".data, [⟨"t2".data, [⟨"a a".data, [qa2]⟩]⟩]⟩

/-- A QAPair whose answer text `zzz` occurs nowhere in its context. -/
def qa3 : QAPair := ⟨"id3".data, "q3".data, false, [⟨"zzz".data, 0⟩]⟩

/-- One-article corpus around `qa3`, context `"abc"`. -/
def d3 : SquadData := ⟨"v2.0".data, [⟨"t3".data, [⟨"abc".data, [qa3]⟩]⟩]⟩

/-- One-article corpus with a single paragraph and no QAPairs. -/
def d5 : SquadData := ⟨"v2.0".data, [⟨"t5".data, [⟨"abc".data, []⟩]⟩]⟩

/-- Same data as `d2` under a different name, for the offset-relocation
counterexample. -/
def qa7 : QAPair := ⟨"id7".data, "q7".data, false, [⟨"a".data, 2⟩]⟩

def d7 : SquadData := ⟨"x".data, [⟨"t7".data, [⟨"a a".data, [qa7]⟩]⟩]⟩

/-- Scenario-2 QAPair: question `What color is the sky?`, answer `blue` at
offset 11 (its first occurrence) of context `The sky is blue.`. -/
def qaW : QAPair :=
  ⟨"idw".data, "What color is the sky?".data, false, [⟨"blue".data, 11⟩]⟩

def dW : SquadData :=
  ⟨"v2.0".data, [⟨"tw".data, [⟨"The sky is blue.".data, [qaW]⟩]⟩]⟩

/-- The AddSent sentence generated for `qaW` under `tag_color`. -/
def sentW : Str := "However, color is not related to blue.".data

def advW : Str := "The sky is blue.".data ++ " ".data ++ sentW

def outWs : SquadData := ⟨"v2.0".data, [⟨"tw".data, [⟨advW, [qaW]⟩]⟩]⟩

def postWs : SquadData :=
  ⟨"v2.0".data, [⟨"tw".data, [⟨"The sky is blue.".data, [qaW]⟩]⟩]⟩

/-- Scenario-3 QAPair: answer `is` in context `This is a test.`, stored
offset 5 (the `is` of `is a`), while the first occurrence is at offset 2
(inside `This`). -/
def qaX : QAPair := ⟨"idx".data, "qx".data, false, [⟨"is".data, 5⟩]⟩

def dX : SquadData :=
  ⟨"v2.0".data, [⟨"tx".data, [⟨"This is a test.".data, [qaX]⟩]⟩]⟩

def qaX2 : QAPair := ⟨"idx".data, "qx".data, false, [⟨"is".data, 2⟩]⟩

def outX : SquadData :=
  ⟨"v2.0".data,
   [⟨"tx".data, [⟨"This is a test.".data ++ " ".data ++ sent0, [qaX2]⟩]⟩]⟩

def postX : SquadData :=
  ⟨"v2.0".data, [⟨"tx".data, [⟨"This is a test.".data, [qaX2]⟩]⟩]⟩

/-- Scenario-1 QAPair: answer `Paris` at offset 0. -/
def qaP : QAPair := ⟨"idp".data, "qp".data, false, [⟨"Paris".data, 0⟩]⟩

def pP : Paragraph := ⟨"Paris is the capital of France.".data, [qaP]⟩

def npP : Paragraph :=
  ⟨"Paris is the capital of France.".data ++ " ".data ++ sent0, [qaP]⟩

def ppP : Paragraph := ⟨"Paris is the capital of France.".data, [qaP]⟩

/-- Paragraph with no QAPairs, for the default-argument counterexample. -/
def pY : Paragraph := ⟨"abc".data, []⟩

def npY : Paragraph := ⟨"abc".data ++ " ".data ++ (sent0 ++ " ".data ++ sent0), []⟩

def ppY : Paragraph := ⟨"abc".data, []⟩

/-- Claim C2 (code bug): running the AddSent pipeline on `d2` *changes the
input corpus*: because `qa.copy()` is shallow, the recomputed first-occurrence
offset 0 is written through the aliased answers list into the input QAPair,
whose `answer_start` was 2. The post-state of the input differs from the
input. -/
theorem C2_input_corpus_mutated :
    (process_squad_file_addsent tag_color rngZ d2).map
        (fun op => first_answer_start_of op.2) = .ok (some 0) ∧
    first_answer_start_of d2 = some 2 := ⟨rfl, rfl⟩

/-- Claim C3 counterexample: on `d3` (answer text `zzz` absent from the
perturbed context) the AddAny run does not drop the QAPair and continue — it
aborts with the uncaught `ValueError` from `str.index`. -/
theorem C3_counterexample :
    process_squad_file_addany rngZ 2 d3 = .error .valueError := rfl

/-- Claim C3 witness: the amended theorem applied to the concrete paragraph
`"abc"` / answer `zzz`. -/
theorem C3_missing_span_aborts_witness :
    qa3 ∈ [qa3] ∧ update_qas "abc".data [qa3] = .error .valueError :=
  ⟨List.mem_singleton.mpr rfl,
   C3_missing_span_aborts.1 "abc".data [qa3] qa3 ⟨"zzz".data, 0⟩ []
     (List.mem_singleton.mpr rfl) rfl rfl⟩

/-- Claim C5 counterexample: called without `num_sentences`, the AddAny
pipeline appends *one* pool sentence, not two: the default is
`num_sentences=1` (the claim's `default N=2` is what the recorded call site
passes explicitly). -/
theorem C5_counterexample :
    (process_squad_file_addany_default rngZ d5).map
        (fun op => first_context_of op.1) =
      .ok (some ("abc".data ++ " ".data ++ sent0)) ∧
    (process_squad_file_addany rngZ 2 d5).map
        (fun op => first_context_of op.1) =
      .ok (some ("abc".data ++ " ".data ++ (sent0 ++ " ".data ++ sent0))) ∧
    ("abc".data ++ " ".data ++ sent0 : Str) ≠
      "abc".data ++ " ".data ++ (sent0 ++ " ".data ++ sent0) :=
  ⟨rfl, rfl, by decide⟩

/-- Claim C5 witness: the amended selection theorem at a concrete
two-sentence run. -/
theorem C5_addany_selection_witness :
    process_paragraph_addany rngZ 2 0 pY = .ok (npY, ppY, 2) ∧
    (∃ sents, sents.length = 2 ∧ (∀ s ∈ sents, s ∈ arbitrary_sentences) ∧
      npY.context = pY.context ++ " ".data ++ joinSp sents) :=
  ⟨rfl, C5_addany_selection.2.1 rngZ 2 0 pY npY ppY 2 rfl⟩

/-- Claim C6 witness: for the Scenario-2 question under `tag_color`, the
generated sentence is the claim's template applied to the chosen QAPair and
key word. -/
theorem C6_addsent_keywords_template_witness :
    sentW = adv_template qaW "color".data := by
  have h := C6_addsent_keywords_template tag_color rngZ 0 [qaW] sentW 2 rfl
  exact h.2.2.2.1

/-- Claim C7 counterexample: on `d7` the input `answer_start` 2 points at an
occurrence of the answer text `a` in context `"a a"`, yet the output
`answer_start` is 0 (the first occurrence), not 2. -/
theorem C7_counterexample :
    (process_squad_file_addany rngZ 1 d7).map
        (fun op => first_answer_start_of op.1) = .ok (some 0) ∧
    first_answer_start_of d7 = some 2 ∧
    subAt "a".data "a a".data 2 := ⟨rfl, rfl, by decide⟩

/-- Claim C7 witness: Scenario 1 — answer `Paris` at offset 0 (the first
occurrence) stays at offset 0, the QAPair passing through unchanged. -/
theorem C7_pure_suffix_offset_preserved_witness :
    process_paragraph_addany rngZ 1 0 pP = .ok (npP, ppP, 1) ∧ qaP ∈ npP.qas :=
  ⟨rfl, C7_pure_suffix_offset_preserved.1 rngZ 1 0 pP npP ppP 1 rfl qaP
    (List.mem_singleton.mpr rfl) ⟨"Paris".data, 0⟩ [] rfl rfl⟩

/-- Claim C8 (code bug): when the question parses to no tokens, both the
noun/verb/adjective pass and the non-punctuation fallback are empty, and the
code indexes into the empty collection — `random.choice([])` raises
`IndexError`; there is no explicit `EmptyKeyWordSetError` guard. -/
theorem C8_empty_keywords_abort :
    generate_adversarial_sentence tag_none rngZ 0 [qa8] = .error .indexError := rfl

/-- Claim C1 witness: the containment hypothesis and invariant at the
concrete Scenario-2 AddSent run. -/
theorem C1_context_containment_witness :
    corpus_containedb dW = true ∧ corpus_contained outWs :=
  ⟨rfl, (C1_context_containment dW rfl).1 tag_color rngZ outWs postWs (by decide)⟩

/-- Claim C4 witness: the Scenario-3 AddAny run relocates answer `is` to the
first occurrence (offset 2, inside `This`), not the stored offset 5. -/
theorem C4_relocation_first_occurrence_witness :
    process_squad_file_addany rngZ 1 dX = .ok (outX, postX) ∧
    corpus_first_located outX :=
  ⟨rfl, C4_relocation_first_occurrence.2 rngZ 1 dX outX postX rfl⟩

/-- Claim C10 witness: the Scenario-2 AddSent run preserves the QAPair
structure of `dW`. -/
theorem C10_qapair_preservation_witness :
    corpus_containedb dW = true ∧ corpus_preserved dW outWs :=
  ⟨rfl, (C10_qapair_preservation dW rfl).1 tag_color rngZ outWs postWs (by decide)⟩
